import Mathlib

/-!
Shallow embedding of `src/examples/render.rs` (osmflat-rs example renderer).

Modelling conventions:
* Rust `u32`/`u64` indices are `Nat`; where wrap-around of `u32` subtraction
  matters it is made explicit via `u32_wrap_sub`.
* Rust `f64` arithmetic is modelled by exact rational arithmetic (`ℚ`); the
  `as isize` / `as u32` casts are modelled as truncation toward zero with the
  saturation that Rust float-to-int casts perform.  All concrete inputs used in
  counterexamples are small dyadic rationals on which `f64` arithmetic is exact.
* The archive (`flatdata` array views) is modelled as total functions from
  indices: out-of-bounds access panics in the source and is an archive error
  outside the claims considered here.
* `transform_meters` (haversine great-circle distance, transcendental) is not
  modelled; no claim depends on it, and the SVG output payload is modelled as
  the projected point lists of the three layer groups.
-/

namespace OsmRender

/-- A node record: fixed-point latitude/longitude (scaled by 1e-9 in `GeoCoord::from`). -/
structure Node where
  lat : Int
  lon : Int
deriving Repr, DecidableEq

/-- A way record: first node-reference index and first tag index; the next
record's indices delimit this record's ranges. -/
structure Way where
  ref_first_idx : Nat
  tag_first_idx : Nat
deriving Repr, DecidableEq

/-- A tag record: key and value as byte offsets into the string table. -/
structure Tag where
  key_idx : Nat
  value_idx : Nat
deriving Repr, DecidableEq

/-- Geographic coordinate in degrees; `f64` modelled as `ℚ`. -/
structure GeoCoord where
  lat : ℚ
  lon : ℚ
deriving Repr, DecidableEq

/-- Component-wise minimum (`GeoCoord::min` in the source). -/
def GeoCoord.min (a b : GeoCoord) : GeoCoord :=
  ⟨Min.min a.lat b.lat, Min.min a.lon b.lon⟩

/-- Component-wise maximum (`GeoCoord::max` in the source). -/
def GeoCoord.max (a b : GeoCoord) : GeoCoord :=
  ⟨Max.max a.lat b.lat, Max.max a.lon b.lon⟩

/-- `GeoCoord::from(node)`: fixed-point to degrees, scale factor 1e-9
(`COORD_SCALE = 0.000000001`). -/
def geoCoordOfNode (n : Node) : GeoCoord :=
  ⟨(n.lat : ℚ) / 1000000000, (n.lon : ℚ) / 1000000000⟩

/-- The archive view consumed by the renderer (`osmflat::Osm`): array views are
total functions from indices, the string table is a flat character list. -/
structure Osm where
  nodes : Nat → Node
  nodes_index : Nat → Nat
  ways : List Way
  tags_index : Nat → Nat
  tags : Nat → Tag
  strings : List Char

/-- Null-terminated string lookup (`substring` in the source): the slice of
`strings` from byte offset `start` up to the first NUL.  The source panics when
no terminator exists; well-formed string tables (the only ones the claims use)
always have one, and on them this model agrees with the source. -/
def substring (strings : List Char) (start : Nat) : String :=
  String.mk ((strings.drop start).takeWhile (fun c => c ≠ Char.ofNat 0))

/-- Wrapping `u32` subtraction, the release-mode semantics of
`end_node_idx - start_node_idx` on `u32` operands. -/
def u32_wrap_sub (a b : Nat) : Nat :=
  (a + 2 ^ 32 - b) % 2 ^ 32

/-- Classification result (`enum WayType` in the source). -/
inductive WayType where
  | Park (start_node_idx end_node_idx : Nat)
  | Road (start_node_idx end_node_idx : Nat)
  | River (start_node_idx end_node_idx width : Nat)
deriving Repr, DecidableEq

/-- `str::parse::<u32>()`: optional leading `+`, at least one ASCII digit,
rejects any other character and values not fitting in `u32`. -/
def parseU32 (s : String) : Option Nat :=
  let cs :=
    match s.data with
    | '+' :: rest => rest
    | cs => cs
  if cs.isEmpty then none
  else if cs.all (fun c => c.isDigit) then
    let v := cs.foldl (fun acc c => acc * 10 + (c.toNat - 48)) 0
    if v < 2 ^ 32 then some v else none
  else none

/-- Key string of the tag at tag-slot `i` (resolved through `tags_index`). -/
def tagKey (tags_index : Nat → Nat) (tags : Nat → Tag) (strings : List Char) (i : Nat) : String :=
  substring strings (tags (tags_index i)).key_idx

/-- Value string of the tag at tag-slot `i` (resolved through `tags_index`). -/
def tagVal (tags_index : Nat → Nat) (tags : Nat → Tag) (strings : List Char) (i : Nat) : String :=
  substring strings (tags (tags_index i)).value_idx

/-- The fixed `highway` exclusion set of the source. -/
def excludedHighway (val : String) : Prop :=
  val = "pedestrian" ∨ val = "steps" ∨ val = "footway" ∨ val = "construction"
    ∨ val = "bic" ∨ val = "cycleway" ∨ val = "layby"
    ∨ val = "bridleway" ∨ val = "path"

instance : DecidablePred excludedHighway := by
  intro v
  unfold excludedHighway
  infer_instance

/-- The inner `waterway` width scan of the source.  The source iterates
`tag_idx` over the full tag range but the line re-resolving `tag` from
`tag_idx` is commented out, so every iteration inspects the same OUTER tag
(the one whose key was `"waterway"`); the loop body therefore does not depend
on the loop variable, only on the iteration count. -/
def riverScan (strings : List Char) (tag : Tag) (start_node_idx end_node_idx : Nat) :
    List Nat → Option WayType
  | [] => some (.River start_node_idx end_node_idx 1)
  | _ :: rest =>
    let key := substring strings tag.key_idx
    if key = "width" ∨ key = "maxwidth" then
      match parseU32 (substring strings tag.value_idx) with
      | some w => some (.River start_node_idx end_node_idx w)
      | none => none
    else riverScan strings tag start_node_idx end_node_idx rest

/-- The main tag scan of `way_filter`, folded over the list of tag-slot
indices `start_tag_idx..end_tag_idx`. -/
def wayTagLoop (tags_index : Nat → Nat) (tags : Nat → Tag) (strings : List Char)
    (start_tag_idx end_tag_idx start_node_idx end_node_idx : Nat) :
    List Nat → Option WayType
  | [] => none
  | tag_idx :: rest =>
    let tag := tags (tags_index tag_idx)
    let key := substring strings tag.key_idx
    if key = "highway" then
      let val := substring strings tag.value_idx
      if excludedHighway val then none
      else some (.Road start_node_idx end_node_idx)
    else if key = "waterway" then
      riverScan strings tag start_node_idx end_node_idx
        (List.range' start_tag_idx (end_tag_idx - start_tag_idx))
    else if key = "leisure" then
      let val := substring strings tag.value_idx
      if val = "park" then some (.Park start_node_idx end_node_idx)
      else wayTagLoop tags_index tags strings start_tag_idx end_tag_idx
        start_node_idx end_node_idx rest
    else wayTagLoop tags_index tags strings start_tag_idx end_tag_idx
      start_node_idx end_node_idx rest

/-- `way_filter` from the source: reject ways with fewer than 2 node refs,
then scan the tag range in storage order. -/
def way_filter (way next_way : Way) (tags_index : Nat → Nat) (tags : Nat → Tag)
    (strings : List Char) : Option WayType :=
  let start_node_idx := way.ref_first_idx
  let end_node_idx := next_way.ref_first_idx
  if u32_wrap_sub end_node_idx start_node_idx < 2 then none
  else
    let start_tag_idx := way.tag_first_idx
    let end_tag_idx := next_way.tag_first_idx
    wayTagLoop tags_index tags strings start_tag_idx end_tag_idx
      start_node_idx end_node_idx
      (List.range' start_tag_idx (end_tag_idx - start_tag_idx))

/-- Truncation toward zero, the rounding of Rust float-to-int `as` casts. -/
def truncQ (q : ℚ) : Int :=
  if 0 ≤ q then ⌊q⌋ else ⌈q⌉

/-- Rust `f64 as isize` on 64-bit: truncate toward zero, saturating. -/
def isizeCast (q : ℚ) : Int :=
  Max.max (-(2 ^ 63)) (Min.min (2 ^ 63 - 1) (truncQ q))

/-- Rust `f64 as u32`: truncate toward zero, saturating to `[0, 2^32-1]`. -/
def u32Cast (q : ℚ) : Nat :=
  (Max.max 0 (Min.min (2 ^ 32 - 1) (truncQ q))).toNat

/-- World-to-raster transformation state (`struct MapTransform`). -/
structure MapTransform where
  width : Nat
  height : Nat
  min_x : ℚ
  min_y : ℚ
  map_w : ℚ
  map_h : ℚ
deriving Repr, DecidableEq

/-- `MapTransform::new`. -/
def MapTransform.new (width height : Nat) (min max : GeoCoord) : MapTransform :=
  { width := width
    height := height
    min_x := min.lon
    min_y := min.lat
    map_w := max.lon - min.lon
    map_h := max.lat - min.lat }

/-- `MapTransform::transform`: project a coordinate to raster space,
`as isize` casts modelled by saturating truncation toward zero. -/
def MapTransform.transform (t : MapTransform) (coord : GeoCoord) : Int × Int :=
  (isizeCast ((coord.lon - t.min_x) / t.map_w * (t.width : ℚ)),
   isizeCast ((1 - (coord.lat - t.min_y) / t.map_h) * (t.height : ℚ)))

/-- Node-index range `[start, end)` stored in a classification
(the match in `NodesIterator::from_way_type`). -/
def wayTypeBounds : WayType → Nat × Nat
  | .Park s e => (s, e)
  | .Road s e => (s, e)
  | .River s e _ => (s, e)

/-- The node sequence of a node-index range: each slot resolves through
`nodes_index` to a node record (`NodesIterator::next`). -/
def nodesSeq (a : Osm) (start stop : Nat) : List Node :=
  (List.range' start (stop - start)).map (fun i => a.nodes (a.nodes_index i))

/-- Coordinate stream of a classified way
(`NodesIterator::from_way_type` composed with `GeoCoord::from`). -/
def coordsOfWayType (a : Osm) (wt : WayType) : List GeoCoord :=
  (nodesSeq a (wayTypeBounds wt).1 (wayTypeBounds wt).2).map geoCoordOfNode

/-- The classified ways: way records zipped with their successor records,
filtered through `way_filter` (the `roads` iterator in `render`). -/
def roadsOf (a : Osm) : List WayType :=
  (a.ways.zip (a.ways.drop 1)).filterMap
    (fun p => way_filter p.1 p.2 a.tags_index a.tags a.strings)

/-- The flattened coordinate stream of all classified ways
(the `coords` iterator in `render`). -/
def allCoords (a : Osm) : List GeoCoord :=
  ((roadsOf a).map (coordsOfWayType a)).flatten

/-- One step of the extent fold in `render`: accumulate component-wise min and
max. -/
def extentStep (mm : GeoCoord × GeoCoord) (c : GeoCoord) : GeoCoord × GeoCoord :=
  (mm.1.min c, mm.2.max c)

/-- The extent fold of `render`: starting from the first coordinate, accumulate
component-wise min and max over the remaining coordinates. -/
def extentFold (first : GeoCoord) (rest : List GeoCoord) : GeoCoord × GeoCoord :=
  rest.foldl extentStep (first, first)

/-- Derived raster height: `(width as f64 * (360./180. * dlat / dlon)) as u32`
(the aspect computation of `render`, lines 348-349). -/
def heightOf (width : Nat) (min max : GeoCoord) : Nat :=
  u32Cast ((width : ℚ) * (360 / 180 * (max.lat - min.lat) / (max.lon - min.lon)))

/-- The projected paths of `render`: each classified way's coordinate stream
mapped through the transform, paired with its `WayType`. -/
def pathsOf (a : Osm) (t : MapTransform) : List (List (Int × Int) × WayType) :=
  (roadsOf a).map (fun wt => ((coordsOfWayType a wt).map t.transform, wt))

/-- Point lists added to the SVG road group. -/
def roadLines (paths : List (List (Int × Int) × WayType)) : List (List (Int × Int)) :=
  paths.filterMap (fun p => match p.2 with | .Road _ _ => some p.1 | _ => none)

/-- Point lists added to the SVG park group. -/
def parkLines (paths : List (List (Int × Int) × WayType)) : List (List (Int × Int)) :=
  paths.filterMap (fun p => match p.2 with | .Park _ _ => some p.1 | _ => none)

/-- Point lists added to the SVG river group. -/
def riverLines (paths : List (List (Int × Int) × WayType)) : List (List (Int × Int)) :=
  paths.filterMap (fun p => match p.2 with | .River _ _ _ => some p.1 | _ => none)

/-- Failure modes of `render`: the `expect("no roads found")` panic and the two
`bail!` errors of the extension match. -/
inductive RenderError where
  | noRoadsFound
  | extensionNotSupported
  | noExtension
deriving Repr, DecidableEq

/-- Output artifact of a successful `render` call.  The PNG branch is a stub in
the source (the line-drawing loop is commented out): it emits only the
all-white background, so the payload is just the raster dimensions.  The SVG
branch is the three layer groups' polyline point lists, in document order
roads, parks, rivers. -/
inductive RenderOutput where
  | png (width height : Nat)
  | svg (width height : Nat)
      (roads parks rivers : List (List (Int × Int)))
deriving Repr, DecidableEq

/-- `render`: classify, compute extent (panicking when the coordinate stream is
empty), derive height, build the transform, project, and dispatch on the output
path extension.  A created output file is exactly an `Except.ok` result; every
`Except.error` leaves no output file (the source panics or bails before the
first write). -/
def render (a : Osm) (ext : Option String) (width : Nat) : Except RenderError RenderOutput :=
  match allCoords a with
  | [] => .error .noRoadsFound
  | first_coord :: rest =>
    let mm := extentFold first_coord rest
    let height := heightOf width mm.1 mm.2
    let t := MapTransform.new (width - 1) (height - 1) mm.1 mm.2
    let paths := pathsOf a t
    match ext with
    | some s =>
      if s = "png" then .ok (.png width height)
      else if s = "svg" then
        .ok (.svg width height (roadLines paths) (parkLines paths) (riverLines paths))
      else .error .extensionNotSupported
    | none => .error .noExtension

/-! Concrete archives for counterexamples and witnesses. -/

/-- Shared concrete string table:
`waterway\0width\0005\0leisure\0park\0highway\0residential\0footway\0river\0`.
Offsets: waterway 0, width 9, "5" 15, leisure 17, park 25, highway 30,
residential 38, footway 50, river 58. -/
def stringsEx : List Char :=
  "waterway".data ++ [Char.ofNat 0] ++
  "width".data ++ [Char.ofNat 0] ++
  "5".data ++ [Char.ofNat 0] ++
  "leisure".data ++ [Char.ofNat 0] ++
  "park".data ++ [Char.ofNat 0] ++
  "highway".data ++ [Char.ofNat 0] ++
  "residential".data ++ [Char.ofNat 0] ++
  "footway".data ++ [Char.ofNat 0] ++
  "river".data ++ [Char.ofNat 0]

/-- Nodes on a small grid with exact dyadic/degree coordinates. -/
def nodesEx : Nat → Node :=
  fun i => ⟨(i : Int) * 1000000000, (i : Int) * 500000000⟩

/-- Archive whose single candidate way has 2 node refs and tags
`leisure=park` then `highway=residential`, in that storage order. -/
def osmParkThenHighway : Osm :=
  { nodes := nodesEx
    nodes_index := fun i => i
    ways := [⟨0, 0⟩, ⟨2, 2⟩]
    tags_index := fun i => i
    tags := fun i => match i with
      | 0 => ⟨17, 25⟩
      | _ => ⟨30, 38⟩
    strings := stringsEx }

/-- Archive whose single candidate way has 2 node refs and tags
`highway=residential` then `leisure=park`, in that storage order. -/
def osmHighwayThenPark : Osm :=
  { nodes := nodesEx
    nodes_index := fun i => i
    ways := [⟨0, 0⟩, ⟨2, 2⟩]
    tags_index := fun i => i
    tags := fun i => match i with
      | 0 => ⟨30, 38⟩
      | _ => ⟨17, 25⟩
    strings := stringsEx }

/-- Archive whose single candidate way has 2 node refs and tags
`waterway=river` then `width=5`, in that storage order. -/
def osmWaterwayWidth : Osm :=
  { nodes := nodesEx
    nodes_index := fun i => i
    ways := [⟨0, 0⟩, ⟨2, 2⟩]
    tags_index := fun i => i
    tags := fun i => match i with
      | 0 => ⟨0, 58⟩
      | _ => ⟨9, 15⟩
    strings := stringsEx }

/-- Archive whose single candidate way has 2 node refs and tags
`leisure=park` then `highway=footway` (excluded value), in that order. -/
def osmParkThenFootway : Osm :=
  { nodes := nodesEx
    nodes_index := fun i => i
    ways := [⟨0, 0⟩, ⟨2, 2⟩]
    tags_index := fun i => i
    tags := fun i => match i with
      | 0 => ⟨17, 25⟩
      | _ => ⟨30, 50⟩
    strings := stringsEx }

/-- Archive where every way is tagged `highway=footway`: the single candidate
way has 2 node refs and its only tag is `highway=footway`. -/
def osmAllFootway : Osm :=
  { nodes := nodesEx
    nodes_index := fun i => i
    ways := [⟨0, 0⟩, ⟨2, 1⟩]
    tags_index := fun i => i
    tags := fun _ => ⟨30, 50⟩
    strings := stringsEx }

/-- Archive with one accepted `highway=residential` way of 3 nodes. -/
def osmOneRoad : Osm :=
  { nodes := nodesEx
    nodes_index := fun i => i
    ways := [⟨0, 0⟩, ⟨3, 1⟩]
    tags_index := fun i => i
    tags := fun _ => ⟨30, 38⟩
    strings := stringsEx }

/-- A tag slot is decisive when the scan's if-chain stops on it: a `highway`
key (accept or reject), a `waterway` key, or a `leisure` key with value
`park`. -/
def DecisiveTag (tags_index : Nat → Nat) (tags : Nat → Tag) (strings : List Char)
    (i : Nat) : Prop :=
  tagKey tags_index tags strings i = "highway" ∨
  tagKey tags_index tags strings i = "waterway" ∨
  (tagKey tags_index tags strings i = "leisure" ∧ tagVal tags_index tags strings i = "park")

/-! Helper lemmas about the tag scan. -/

theorem wayTagLoop_skip (ti : Nat → Nat) (tg : Nat → Tag) (st : List Char)
    (s e sn en : Nat) (l1 l2 : List Nat)
    (h : ∀ j ∈ l1, ¬ DecisiveTag ti tg st j) :
    wayTagLoop ti tg st s e sn en (l1 ++ l2) = wayTagLoop ti tg st s e sn en l2 := by
  induction l1 with
  | nil => rfl
  | cons j t ih =>
    have hj := h j (List.mem_cons_self j t)
    rw [DecisiveTag] at hj
    push_neg at hj
    obtain ⟨h1, h2, h3⟩ := hj
    simp only [tagKey, tagVal] at h1 h2 h3
    rw [List.cons_append]
    simp only [wayTagLoop]
    rw [if_neg h1, if_neg h2]
    by_cases hl : substring st (tg (ti j)).key_idx = "leisure"
    · rw [if_pos hl, if_neg (h3 hl)]
      exact ih (fun k hk => h k (List.mem_cons_of_mem j hk))
    · rw [if_neg hl]
      exact ih (fun k hk => h k (List.mem_cons_of_mem j hk))

theorem wayTagLoop_highway_accepted (ti : Nat → Nat) (tg : Nat → Tag) (st : List Char)
    (s e sn en i : Nat) (l : List Nat)
    (hk : tagKey ti tg st i = "highway")
    (hv : ¬ excludedHighway (tagVal ti tg st i)) :
    wayTagLoop ti tg st s e sn en (i :: l) = some (.Road sn en) := by
  simp only [tagKey, tagVal] at hk hv
  simp only [wayTagLoop]
  rw [if_pos hk, if_neg hv]

theorem wayTagLoop_highway_excluded (ti : Nat → Nat) (tg : Nat → Tag) (st : List Char)
    (s e sn en i : Nat) (l : List Nat)
    (hk : tagKey ti tg st i = "highway")
    (hv : excludedHighway (tagVal ti tg st i)) :
    wayTagLoop ti tg st s e sn en (i :: l) = none := by
  simp only [tagKey, tagVal] at hk hv
  simp only [wayTagLoop]
  rw [if_pos hk, if_pos hv]

theorem wayTagLoop_leisure_park (ti : Nat → Nat) (tg : Nat → Tag) (st : List Char)
    (s e sn en i : Nat) (l : List Nat)
    (hk : tagKey ti tg st i = "leisure")
    (hv : tagVal ti tg st i = "park") :
    wayTagLoop ti tg st s e sn en (i :: l) = some (.Park sn en) := by
  simp only [tagKey, tagVal] at hk hv
  simp only [wayTagLoop]
  rw [if_neg (by rw [hk]; decide), if_neg (by rw [hk]; decide), if_pos hk, if_pos hv]

theorem riverScan_width_one (st : List Char) (tag : Tag) (sn en : Nat)
    (h1 : substring st tag.key_idx ≠ "width")
    (h2 : substring st tag.key_idx ≠ "maxwidth") :
    ∀ l : List Nat, riverScan st tag sn en l = some (.River sn en 1) := by
  intro l
  induction l with
  | nil => rfl
  | cons j t ih =>
    simp only [riverScan]
    rw [if_neg (by push_neg; exact ⟨h1, h2⟩)]
    exact ih

theorem wayTagLoop_waterway (ti : Nat → Nat) (tg : Nat → Tag) (st : List Char)
    (s e sn en i : Nat) (l : List Nat)
    (hk : tagKey ti tg st i = "waterway") :
    wayTagLoop ti tg st s e sn en (i :: l) = some (.River sn en 1) := by
  simp only [tagKey] at hk
  simp only [wayTagLoop]
  rw [if_neg (by rw [hk]; decide), if_pos hk]
  exact riverScan_width_one st (tg (ti i)) sn en
    (by rw [hk]; decide) (by rw [hk]; decide) _

theorem range'_split (s i e : Nat) (h1 : s ≤ i) (h2 : i < e) :
    List.range' s (e - s) = List.range' s (i - s) ++ i :: List.range' (i + 1) (e - (i + 1))
    := by
  have hcons : i :: List.range' (i + 1) (e - (i + 1)) = List.range' i (e - (i + 1) + 1) := by
    rw [List.range'_succ]
  rw [hcons]
  have happ := List.range'_append s (i - s) (e - (i + 1) + 1) 1
  rw [Nat.one_mul] at happ
  have hsi : s + (i - s) = i := by omega
  rw [hsi] at happ
  rw [happ]
  congr 1
  omega

theorem u32_wrap_sub_eq (a b : Nat) (h1 : b ≤ a) (h2 : a < 2 ^ 32) :
    u32_wrap_sub a b = a - b := by
  unfold u32_wrap_sub
  omega

/-- `way_filter` unfolded on a way passing the node-count guard. -/
theorem way_filter_scan (way next_way : Way) (ti : Nat → Nat) (tg : Nat → Tag)
    (st : List Char)
    (hge : ¬ u32_wrap_sub next_way.ref_first_idx way.ref_first_idx < 2) :
    way_filter way next_way ti tg st =
      wayTagLoop ti tg st way.tag_first_idx next_way.tag_first_idx
        way.ref_first_idx next_way.ref_first_idx
        (List.range' way.tag_first_idx (next_way.tag_first_idx - way.tag_first_idx)) := by
  simp only [way_filter]
  rw [if_neg hge]

/-- When tag slot `i` is the first decisive slot of the way's range and the
node-count guard passes, `way_filter` reduces to the scan starting at `i`. -/
theorem way_filter_at_first_decisive (way next_way : Way) (ti : Nat → Nat)
    (tg : Nat → Tag) (st : List Char) (i : Nat)
    (hge : ¬ u32_wrap_sub next_way.ref_first_idx way.ref_first_idx < 2)
    (hsi : way.tag_first_idx ≤ i) (hie : i < next_way.tag_first_idx)
    (hprev : ∀ j, way.tag_first_idx ≤ j → j < i → ¬ DecisiveTag ti tg st j) :
    way_filter way next_way ti tg st =
      wayTagLoop ti tg st way.tag_first_idx next_way.tag_first_idx
        way.ref_first_idx next_way.ref_first_idx
        (i :: List.range' (i + 1) (next_way.tag_first_idx - (i + 1))) := by
  rw [way_filter_scan way next_way ti tg st hge,
      range'_split way.tag_first_idx i next_way.tag_first_idx hsi hie,
      wayTagLoop_skip]
  intro j hj
  rw [List.mem_range'] at hj
  obtain ⟨k, hkn, hm⟩ := hj
  exact hprev j (by omega) (by omega)

/-- The node-count guard of `way_filter` does not fire when the way references
at least two nodes (indices read from `u32` fields). -/
theorem guard_passes (way next_way : Way)
    (hle : way.ref_first_idx ≤ next_way.ref_first_idx)
    (hlt : next_way.ref_first_idx < 2 ^ 32)
    (h2 : 2 ≤ next_way.ref_first_idx - way.ref_first_idx) :
    ¬ u32_wrap_sub next_way.ref_first_idx way.ref_first_idx < 2 := by
  rw [u32_wrap_sub_eq next_way.ref_first_idx way.ref_first_idx hle hlt]
  omega

/-! Claim C1. -/

/-- C1 counterexample: a way with 2 node refs carrying `leisure=park` followed
by `highway=residential` (an accepted, non-excluded value) classifies as
`Park`, not `Road`: the claim that such a way classifies as `Road` and never
`Park` irrespective of tag order is false — `way_filter` returns on
`leisure=park` immediately. -/
theorem c1_counterexample :
    tagKey osmParkThenHighway.tags_index osmParkThenHighway.tags
        osmParkThenHighway.strings 0 = "leisure" ∧
    tagVal osmParkThenHighway.tags_index osmParkThenHighway.tags
        osmParkThenHighway.strings 0 = "park" ∧
    tagKey osmParkThenHighway.tags_index osmParkThenHighway.tags
        osmParkThenHighway.strings 1 = "highway" ∧
    tagVal osmParkThenHighway.tags_index osmParkThenHighway.tags
        osmParkThenHighway.strings 1 = "residential" ∧
    ¬ excludedHighway "residential" ∧
    way_filter ⟨0, 0⟩ ⟨2, 2⟩ osmParkThenHighway.tags_index osmParkThenHighway.tags
        osmParkThenHighway.strings = some (WayType.Park 0 2) :=
  ⟨by decide, by decide, by decide, by decide, by decide, by decide⟩

/-- C1 amended: classification is first-decisive-tag-wins.  For a way passing
the node-count guard whose first decisive tag slot `i` is a `highway` tag with
an accepted value, `way_filter` returns `Road`; when the first decisive slot is
`leisure=park`, it returns `Park`.  In particular a way carrying both tags
classifies by whichever appears first: tag order decides, and `leisure=park`
is not provisional. -/
theorem c1_first_decisive_order :
    (∀ (way next_way : Way) (ti : Nat → Nat) (tg : Nat → Tag) (st : List Char) (i : Nat),
      way.ref_first_idx ≤ next_way.ref_first_idx →
      next_way.ref_first_idx < 2 ^ 32 →
      2 ≤ next_way.ref_first_idx - way.ref_first_idx →
      way.tag_first_idx ≤ i → i < next_way.tag_first_idx →
      (∀ j, way.tag_first_idx ≤ j → j < i → ¬ DecisiveTag ti tg st j) →
      tagKey ti tg st i = "highway" →
      ¬ excludedHighway (tagVal ti tg st i) →
      way_filter way next_way ti tg st =
        some (WayType.Road way.ref_first_idx next_way.ref_first_idx)) ∧
    (∀ (way next_way : Way) (ti : Nat → Nat) (tg : Nat → Tag) (st : List Char) (i : Nat),
      way.ref_first_idx ≤ next_way.ref_first_idx →
      next_way.ref_first_idx < 2 ^ 32 →
      2 ≤ next_way.ref_first_idx - way.ref_first_idx →
      way.tag_first_idx ≤ i → i < next_way.tag_first_idx →
      (∀ j, way.tag_first_idx ≤ j → j < i → ¬ DecisiveTag ti tg st j) →
      tagKey ti tg st i = "leisure" → tagVal ti tg st i = "park" →
      way_filter way next_way ti tg st =
        some (WayType.Park way.ref_first_idx next_way.ref_first_idx)) := by
  constructor
  · intro way next_way ti tg st i hle hlt h2 hsi hie hprev hk hv
    rw [way_filter_at_first_decisive way next_way ti tg st i
      (guard_passes way next_way hle hlt h2) hsi hie hprev]
    exact wayTagLoop_highway_accepted ti tg st _ _ _ _ i _ hk hv
  · intro way next_way ti tg st i hle hlt h2 hsi hie hprev hk hv
    rw [way_filter_at_first_decisive way next_way ti tg st i
      (guard_passes way next_way hle hlt h2) hsi hie hprev]
    exact wayTagLoop_leisure_park ti tg st _ _ _ _ i _ hk hv

/-- C1 witness: with `highway=residential` first the way classifies `Road`;
with `leisure=park` first it classifies `Park`. -/
theorem c1_witness :
    way_filter ⟨0, 0⟩ ⟨2, 2⟩ osmHighwayThenPark.tags_index osmHighwayThenPark.tags
        osmHighwayThenPark.strings = some (WayType.Road 0 2) ∧
    way_filter ⟨0, 0⟩ ⟨2, 2⟩ osmParkThenHighway.tags_index osmParkThenHighway.tags
        osmParkThenHighway.strings = some (WayType.Park 0 2) := by
  constructor
  · exact c1_first_decisive_order.1 ⟨0, 0⟩ ⟨2, 2⟩ osmHighwayThenPark.tags_index
      osmHighwayThenPark.tags osmHighwayThenPark.strings 0
      (by decide) (by decide) (by decide) (by decide) (by decide)
      (fun j h1 h2 => absurd h2 (by omega)) (by decide) (by decide)
  · exact c1_first_decisive_order.2 ⟨0, 0⟩ ⟨2, 2⟩ osmParkThenHighway.tags_index
      osmParkThenHighway.tags osmParkThenHighway.strings 0
      (by decide) (by decide) (by decide) (by decide) (by decide)
      (fun j h1 h2 => absurd h2 (by omega)) (by decide) (by decide)

/-! Claim C2. -/

/-- C2, code bug exhibited: a way with 2 node refs tagged `waterway=river` and
`width=5` (with `5` parseable: `parseU32 "5" = some 5`) classifies as
`River` with width 1, not the parsed width 5.  The source's inner width scan
iterates over the tag range but the line re-resolving the tag from the loop
variable is commented out, so every iteration re-reads the outer `waterway`
tag and no width tag is ever found. -/
theorem c2_width_ignored :
    tagKey osmWaterwayWidth.tags_index osmWaterwayWidth.tags
        osmWaterwayWidth.strings 0 = "waterway" ∧
    tagKey osmWaterwayWidth.tags_index osmWaterwayWidth.tags
        osmWaterwayWidth.strings 1 = "width" ∧
    tagVal osmWaterwayWidth.tags_index osmWaterwayWidth.tags
        osmWaterwayWidth.strings 1 = "5" ∧
    parseU32 "5" = some 5 ∧
    way_filter ⟨0, 0⟩ ⟨2, 2⟩ osmWaterwayWidth.tags_index osmWaterwayWidth.tags
        osmWaterwayWidth.strings = some (WayType.River 0 2 1) :=
  ⟨by decide, by decide, by decide, by decide, by decide⟩

/-! Claim C3. -/

/-- C3 counterexample: a way with 2 node refs whose tag range is `leisure=park`
followed by `highway=footway` (an excluded value) classifies as `Park` rather
than being rejected: an accepting tag appearing earlier wins, so the claim
that an excluded `highway` value always yields `None` is false. -/
theorem c3_counterexample :
    tagKey osmParkThenFootway.tags_index osmParkThenFootway.tags
        osmParkThenFootway.strings 1 = "highway" ∧
    tagVal osmParkThenFootway.tags_index osmParkThenFootway.tags
        osmParkThenFootway.strings 1 = "footway" ∧
    excludedHighway "footway" ∧
    way_filter ⟨0, 0⟩ ⟨2, 2⟩ osmParkThenFootway.tags_index osmParkThenFootway.tags
        osmParkThenFootway.strings = some (WayType.Park 0 2) :=
  ⟨by decide, by decide, by decide, by decide⟩

/-- C3 amended: a way whose FIRST decisive tag slot is a `highway` tag with a
value in the exclusion set is rejected (`none`), even if accepting tags appear
later in the range; accepting tags appearing before it win instead. -/
theorem c3_excluded_first_decisive (way next_way : Way) (ti : Nat → Nat)
    (tg : Nat → Tag) (st : List Char) (i : Nat)
    (hsi : way.tag_first_idx ≤ i) (hie : i < next_way.tag_first_idx)
    (hprev : ∀ j, way.tag_first_idx ≤ j → j < i → ¬ DecisiveTag ti tg st j)
    (hk : tagKey ti tg st i = "highway")
    (hv : excludedHighway (tagVal ti tg st i)) :
    way_filter way next_way ti tg st = none := by
  by_cases hg : u32_wrap_sub next_way.ref_first_idx way.ref_first_idx < 2
  · simp only [way_filter]
    rw [if_pos hg]
  · rw [way_filter_at_first_decisive way next_way ti tg st i hg hsi hie hprev]
    exact wayTagLoop_highway_excluded ti tg st _ _ _ _ i _ hk hv

/-- C3 witness: the all-`highway=footway` way is rejected. -/
theorem c3_witness :
    way_filter ⟨0, 0⟩ ⟨2, 1⟩ osmAllFootway.tags_index osmAllFootway.tags
        osmAllFootway.strings = none :=
  c3_excluded_first_decisive ⟨0, 0⟩ ⟨2, 1⟩ osmAllFootway.tags_index osmAllFootway.tags
    osmAllFootway.strings 0 (by decide) (by decide)
    (fun j h1 h2 => absurd h2 (by omega)) (by decide) (by decide)

/-! Claim C4. -/

/-- C4: a way whose node-reference range `[start, stop)` holds fewer than two
indices is rejected by `way_filter` regardless of its tags — the guard returns
before the tag scan, for every tag table and string table. -/
theorem c4_too_few_nodes (way next_way : Way) (ti : Nat → Nat) (tg : Nat → Tag)
    (st : List Char)
    (hle : way.ref_first_idx ≤ next_way.ref_first_idx)
    (hlt : next_way.ref_first_idx < 2 ^ 32)
    (h2 : next_way.ref_first_idx - way.ref_first_idx < 2) :
    way_filter way next_way ti tg st = none := by
  simp only [way_filter]
  rw [if_pos (by rw [u32_wrap_sub_eq next_way.ref_first_idx way.ref_first_idx hle hlt]; omega)]

/-- C4 witness: a one-node way is rejected though its tag is an accepted
`highway=residential`. -/
theorem c4_witness :
    way_filter ⟨0, 0⟩ ⟨1, 1⟩ osmOneRoad.tags_index osmOneRoad.tags
        osmOneRoad.strings = none :=
  c4_too_few_nodes ⟨0, 0⟩ ⟨1, 1⟩ osmOneRoad.tags_index osmOneRoad.tags
    osmOneRoad.strings (by decide) (by decide) (by decide)

/-! Claim C5. -/

/-- C5: when no way passes classification the render call fails with the
`no roads found` panic before reaching the output dispatch, for every output
path extension and width; no output artifact is produced (an output file is
exactly an `Except.ok` result of `render`). -/
theorem c5_no_accepted_ways_fails (a : Osm) (ext : Option String) (width : Nat)
    (h : roadsOf a = []) :
    render a ext width = Except.error RenderError.noRoadsFound := by
  have hc : allCoords a = [] := by rw [allCoords, h]; rfl
  simp only [render, hc]

/-- C5 witness: an archive whose only candidate way is `highway=footway` has no
accepted ways and `render` fails without output. -/
theorem c5_witness :
    roadsOf osmAllFootway = [] ∧
    render osmAllFootway (some "svg") 4000 = Except.error RenderError.noRoadsFound :=
  ⟨by decide, c5_no_accepted_ways_fails osmAllFootway (some "svg") 4000 (by decide)⟩

/-! Claim C8. -/

/-- C8: for every output path whose extension is neither `png` nor `svg`
(including a missing extension), `render` returns an error for every archive
and width — there is no fallback output format and no `Except.ok` artifact. -/
theorem c8_unsupported_extension (a : Osm) (ext : Option String) (width : Nat)
    (hpng : ext ≠ some "png") (hsvg : ext ≠ some "svg") :
    ∃ e, render a ext width = Except.error e := by
  cases hc : allCoords a with
  | nil => exact ⟨RenderError.noRoadsFound, by simp only [render, hc]⟩
  | cons c0 rest =>
    cases ext with
    | none => exact ⟨RenderError.noExtension, by simp only [render, hc]⟩
    | some s =>
      have h1 : s ≠ "png" := fun hs => hpng (by rw [hs])
      have h2 : s ≠ "svg" := fun hs => hsvg (by rw [hs])
      exact ⟨RenderError.extensionNotSupported, by
        simp only [render, hc]
        rw [if_neg h1, if_neg h2]⟩

/-- C8 witness: requesting `map.bmp` fails. -/
theorem c8_witness :
    ∃ e, render osmAllFootway (some "bmp") 4000 = Except.error e :=
  c8_unsupported_extension osmAllFootway (some "bmp") 4000 (by decide) (by decide)

/-! Claim C9. -/

/-- Zipping a list with its own tail pairs index `i` with index `i + 1` for
`i < length - 1`: the last element appears only as a second component. -/
theorem zip_drop_one {α : Type} (xs : List α) (d : α) :
    xs.zip (xs.drop 1) =
      (List.range (xs.length - 1)).map (fun i => (xs.getD i d, xs.getD (i + 1) d)) := by
  induction xs with
  | nil => rfl
  | cons x t ih =>
    cases t with
    | nil => rfl
    | cons y t' =>
      have ih' := ih
      rw [show (y :: t').drop 1 = t' from rfl] at ih'
      rw [show (x :: y :: t').drop 1 = y :: t' from rfl]
      rw [List.zip_cons_cons, ih']
      rw [show (x :: y :: t').length - 1 = ((y :: t').length - 1) + 1 from by
        simp [List.length_cons]]
      rw [List.range_succ_eq_map, List.map_cons, List.map_map]
      rfl

/-- C9: for an archive with `n` way records, the classification pass runs
`way_filter` exactly on the pairs `(record i, record (i+1))` for
`i < n - 1`; the final record is never itself a candidate, serving only as the
delimiter of record `n - 2`'s ranges. -/
theorem c9_last_way_only_delimits (a : Osm) :
    roadsOf a = (List.range (a.ways.length - 1)).filterMap
      (fun i => way_filter (a.ways.getD i ⟨0, 0⟩) (a.ways.getD (i + 1) ⟨0, 0⟩)
        a.tags_index a.tags a.strings) := by
  rw [roadsOf, zip_drop_one a.ways ⟨0, 0⟩, List.filterMap_map]
  rfl

/-! Claim C6. -/

/-- C6 counterexample: with extent `(0,0)-(7/8, 1)` and width 1 the aspect
product is `1 * (360/180 * (7/8) / 1) = 7/4`; rounding to nearest gives 2, but
the computed height is 1 — the `as u32` cast truncates and does not round. -/
theorem c6_counterexample :
    heightOf 1 ⟨0, 0⟩ ⟨7/8, 1⟩ = 1 ∧
    round ((1 : ℚ) * (360 / 180 * ((7/8 : ℚ) - 0) / ((1 : ℚ) - 0))) = 2 := by
  constructor
  · norm_num [heightOf, u32Cast, truncQ]
  · norm_num [round_eq]

/-- C6 amended: the derived raster height is the saturating-truncating `u32`
cast of `width * (360/180 * (max.lat - min.lat) / (max.lon - min.lon))`, i.e.
when the product is representable, `height ≤ product < height + 1` — truncation
toward zero, not rounding to nearest. -/
theorem c6_height_truncates (width : Nat) (mn mx : GeoCoord)
    (h0 : 0 ≤ (width : ℚ) * (360 / 180 * (mx.lat - mn.lat) / (mx.lon - mn.lon)))
    (h1 : (width : ℚ) * (360 / 180 * (mx.lat - mn.lat) / (mx.lon - mn.lon)) ≤ 2 ^ 32 - 1) :
    (heightOf width mn mx : ℚ) ≤
        (width : ℚ) * (360 / 180 * (mx.lat - mn.lat) / (mx.lon - mn.lon)) ∧
      (width : ℚ) * (360 / 180 * (mx.lat - mn.lat) / (mx.lon - mn.lon)) <
        heightOf width mn mx + 1 := by
  set q : ℚ := (width : ℚ) * (360 / 180 * (mx.lat - mn.lat) / (mx.lon - mn.lon)) with hqdef
  have htr : truncQ q = ⌊q⌋ := by rw [truncQ, if_pos h0]
  have hfl0 : (0 : ℤ) ≤ ⌊q⌋ := Int.floor_nonneg.mpr h0
  have hcast : ((2 ^ 32 - 1 : ℤ) : ℚ) = (2 ^ 32 - 1 : ℚ) := by push_cast; ring
  have hfl1 : ⌊q⌋ ≤ 2 ^ 32 - 1 := by
    calc ⌊q⌋ ≤ ⌊(2 ^ 32 - 1 : ℚ)⌋ := Int.floor_mono h1
      _ = 2 ^ 32 - 1 := by rw [← hcast, Int.floor_intCast]
  have hh : ((heightOf width mn mx : Nat) : ℤ) = ⌊q⌋ := by
    rw [heightOf, ← hqdef, u32Cast, htr, min_eq_right hfl1, max_eq_right hfl0,
      Int.toNat_of_nonneg hfl0]
  have hhq : ((heightOf width mn mx : Nat) : ℚ) = ((⌊q⌋ : ℤ) : ℚ) := by
    exact_mod_cast congrArg (fun z : ℤ => (z : ℚ)) hh
  constructor
  · rw [hhq]
    exact Int.floor_le q
  · rw [hhq]
    exact Int.lt_floor_add_one q

/-- C6 witness: the amended bound at extent `(0,0)-(7/8,1)`, width 1. -/
theorem c6_witness :
    (heightOf 1 ⟨0, 0⟩ ⟨7/8, 1⟩ : ℚ) ≤
        (1 : ℚ) * (360 / 180 * (((7:ℚ)/8) - 0) / ((1 : ℚ) - 0)) ∧
      (1 : ℚ) * (360 / 180 * (((7:ℚ)/8) - 0) / ((1 : ℚ) - 0)) <
        heightOf 1 ⟨0, 0⟩ ⟨7/8, 1⟩ + 1 :=
  c6_height_truncates 1 ⟨0, 0⟩ ⟨7/8, 1⟩ (by norm_num) (by norm_num)

/-! Claim C7. -/

/-- Truncation toward zero is monotone. -/
theorem truncQ_mono {a b : ℚ} (h : a ≤ b) : truncQ a ≤ truncQ b := by
  unfold truncQ
  by_cases ha : 0 ≤ a
  · rw [if_pos ha, if_pos (le_trans ha h)]
    exact Int.floor_mono h
  · rw [if_neg ha]
    by_cases hb : 0 ≤ b
    · rw [if_pos hb]
      calc ⌈a⌉ ≤ 0 := Int.ceil_le.mpr (by exact_mod_cast le_of_not_le ha)
        _ ≤ ⌊b⌋ := Int.floor_nonneg.mpr hb
    · rw [if_neg hb]
      exact Int.ceil_mono h

/-- The saturating `isize` cast is monotone. -/
theorem isizeCast_mono {a b : ℚ} (h : a ≤ b) : isizeCast a ≤ isizeCast b := by
  unfold isizeCast
  exact max_le_max (le_refl _) (min_le_min (le_refl _) (truncQ_mono h))

/-- C7 counterexample: extent `(0,0)-(1,1)`, raster 8x8.  The in-extent
coordinates with equal latitude and longitudes `1/8 < 3/16` both project to
x = 1: the projection is NOT strictly monotonic (truncation collapses nearby
longitudes onto the same pixel column). -/
theorem c7_counterexample :
    (0 : ℚ) ≤ 1/8 ∧ (1/8 : ℚ) < 3/16 ∧ (3/16 : ℚ) ≤ 1 ∧
    ((MapTransform.new 8 8 ⟨0, 0⟩ ⟨1, 1⟩).transform ⟨0, 1/8⟩).1 = 1 ∧
    ((MapTransform.new 8 8 ⟨0, 0⟩ ⟨1, 1⟩).transform ⟨0, 3/16⟩).1 = 1 := by
  refine ⟨by norm_num, by norm_num, by norm_num, ?_, ?_⟩
  · norm_num [MapTransform.new, MapTransform.transform, isizeCast, truncQ]
  · norm_num [MapTransform.new, MapTransform.transform, isizeCast, truncQ]

/-- C7 amended: within a non-degenerate extent, `MapTransform.transform` is
weakly monotonic: with equal latitude, greater longitude yields a
greater-or-equal projected x; with equal longitude, greater latitude yields a
smaller-or-equal projected y.  Strictness is lost to the truncating integer
cast. -/
theorem c7_transform_weak_monotone :
    (∀ (w ht : Nat) (mn mx c1 c2 : GeoCoord),
      mn.lon < mx.lon →
      mn.lon ≤ c1.lon → c1.lon ≤ mx.lon → mn.lon ≤ c2.lon → c2.lon ≤ mx.lon →
      c1.lat = c2.lat → c1.lon < c2.lon →
      ((MapTransform.new w ht mn mx).transform c1).1 ≤
        ((MapTransform.new w ht mn mx).transform c2).1) ∧
    (∀ (w ht : Nat) (mn mx c1 c2 : GeoCoord),
      mn.lat < mx.lat →
      mn.lat ≤ c1.lat → c1.lat ≤ mx.lat → mn.lat ≤ c2.lat → c2.lat ≤ mx.lat →
      c1.lon = c2.lon → c1.lat < c2.lat →
      ((MapTransform.new w ht mn mx).transform c2).2 ≤
        ((MapTransform.new w ht mn mx).transform c1).2) := by
  constructor
  · intro w ht mn mx c1 c2 hw _ _ _ _ _ hlon
    simp only [MapTransform.new, MapTransform.transform]
    apply isizeCast_mono
    have hpos : (0 : ℚ) < mx.lon - mn.lon := sub_pos.mpr hw
    have hdiv : (c1.lon - mn.lon) / (mx.lon - mn.lon) ≤
        (c2.lon - mn.lon) / (mx.lon - mn.lon) :=
      (div_le_div_iff_of_pos_right hpos).mpr (by linarith)
    exact mul_le_mul_of_nonneg_right hdiv (Nat.cast_nonneg w)
  · intro w ht mn mx c1 c2 hh _ _ _ _ _ hlat
    simp only [MapTransform.new, MapTransform.transform]
    apply isizeCast_mono
    have hpos : (0 : ℚ) < mx.lat - mn.lat := sub_pos.mpr hh
    have hdiv : (c1.lat - mn.lat) / (mx.lat - mn.lat) ≤
        (c2.lat - mn.lat) / (mx.lat - mn.lat) :=
      (div_le_div_iff_of_pos_right hpos).mpr (by linarith)
    have : 1 - (c2.lat - mn.lat) / (mx.lat - mn.lat) ≤
        1 - (c1.lat - mn.lat) / (mx.lat - mn.lat) := by linarith
    exact mul_le_mul_of_nonneg_right this (Nat.cast_nonneg ht)

/-- C7 witness: the weak bounds at extent `(0,0)-(1,1)`, raster 8x8. -/
theorem c7_witness :
    ((MapTransform.new 8 8 ⟨0, 0⟩ ⟨1, 1⟩).transform ⟨0, 1/8⟩).1 ≤
      ((MapTransform.new 8 8 ⟨0, 0⟩ ⟨1, 1⟩).transform ⟨0, 3/16⟩).1 ∧
    ((MapTransform.new 8 8 ⟨0, 0⟩ ⟨1, 1⟩).transform ⟨3/16, 0⟩).2 ≤
      ((MapTransform.new 8 8 ⟨0, 0⟩ ⟨1, 1⟩).transform ⟨1/8, 0⟩).2 := by
  constructor
  · exact c7_transform_weak_monotone.1 8 8 ⟨0, 0⟩ ⟨1, 1⟩ ⟨0, 1/8⟩ ⟨0, 3/16⟩
      (by norm_num) (by norm_num) (by norm_num) (by norm_num) (by norm_num)
      (by norm_num) (by norm_num)
  · exact c7_transform_weak_monotone.2 8 8 ⟨0, 0⟩ ⟨1, 1⟩ ⟨1/8, 0⟩ ⟨3/16, 0⟩
      (by norm_num) (by norm_num) (by norm_num) (by norm_num) (by norm_num)
      (by norm_num) (by norm_num)

/-! Claim C10. -/

/-- The extent fold bounds its accumulator and every list element:
the resulting min is below the initial min and every element, the resulting
max above the initial max and every element, component-wise. -/
theorem extentStep_fold_bounds (l : List GeoCoord) :
    ∀ mn mx : GeoCoord,
      ((l.foldl extentStep (mn, mx)).1.lat ≤ mn.lat ∧
       (l.foldl extentStep (mn, mx)).1.lon ≤ mn.lon ∧
       mx.lat ≤ (l.foldl extentStep (mn, mx)).2.lat ∧
       mx.lon ≤ (l.foldl extentStep (mn, mx)).2.lon) ∧
      ∀ c ∈ l,
        (l.foldl extentStep (mn, mx)).1.lat ≤ c.lat ∧
        (l.foldl extentStep (mn, mx)).1.lon ≤ c.lon ∧
        c.lat ≤ (l.foldl extentStep (mn, mx)).2.lat ∧
        c.lon ≤ (l.foldl extentStep (mn, mx)).2.lon := by
  induction l with
  | nil =>
    intro mn mx
    exact ⟨⟨le_refl _, le_refl _, le_refl _, le_refl _⟩, by simp⟩
  | cons c t ih =>
    intro mn mx
    rw [List.foldl_cons]
    have hstep : extentStep (mn, mx) c = (mn.min c, mx.max c) := rfl
    rw [hstep]
    obtain ⟨⟨a1, a2, a3, a4⟩, hmem⟩ := ih (mn.min c) (mx.max c)
    have hminlat : (mn.min c).lat = Min.min mn.lat c.lat := rfl
    have hminlon : (mn.min c).lon = Min.min mn.lon c.lon := rfl
    have hmaxlat : (mx.max c).lat = Max.max mx.lat c.lat := rfl
    have hmaxlon : (mx.max c).lon = Max.max mx.lon c.lon := rfl
    rw [hminlat] at a1
    rw [hminlon] at a2
    rw [hmaxlat] at a3
    rw [hmaxlon] at a4
    constructor
    · exact ⟨le_trans a1 (min_le_left _ _), le_trans a2 (min_le_left _ _),
        le_trans (le_max_left _ _) a3, le_trans (le_max_left _ _) a4⟩
    · intro x hx
      rcases List.mem_cons.mp hx with hx | hx
      · subst hx
        exact ⟨le_trans a1 (min_le_right _ _), le_trans a2 (min_le_right _ _),
          le_trans (le_max_right _ _) a3, le_trans (le_max_right _ _) a4⟩
      · exact hmem x hx

/-- C10: the extent computed by the first pass bounds every coordinate the
projection pass feeds to `MapTransform.transform`.  First conjunct: with
`allCoords a = c0 :: rest` (the `expect` cannot fire), every coordinate of the
stream lies inside the folded `(min, max)` extent.  Second conjunct: the
projection pass re-enumerates exactly the same coordinate sequence — the
flattened projected point lists equal the extent pass's coordinate stream
mapped through the transform (classification and node streaming are pure, so
the cloned re-iteration sees identical data). -/
theorem c10_projection_in_extent :
    (∀ (a : Osm) (c0 : GeoCoord) (rest : List GeoCoord),
      allCoords a = c0 :: rest →
      ∀ c ∈ allCoords a,
        (extentFold c0 rest).1.lat ≤ c.lat ∧
        (extentFold c0 rest).1.lon ≤ c.lon ∧
        c.lat ≤ (extentFold c0 rest).2.lat ∧
        c.lon ≤ (extentFold c0 rest).2.lon) ∧
    (∀ (a : Osm) (t : MapTransform),
      ((pathsOf a t).map Prod.fst).flatten = (allCoords a).map t.transform) := by
  constructor
  · intro a c0 rest h c hc
    rw [h] at hc
    obtain ⟨⟨a1, a2, a3, a4⟩, hmem⟩ := extentStep_fold_bounds rest c0 c0
    rcases List.mem_cons.mp hc with hx | hx
    · subst hx
      exact ⟨a1, a2, a3, a4⟩
    · exact hmem c hx
  · intro a t
    rw [pathsOf, List.map_map, allCoords, List.map_flatten, List.map_map]
    rfl

/-- C10 witness: the one-road archive's coordinate stream, its extent, and the
membership bound at the stream's last coordinate. -/
theorem c10_witness :
    allCoords osmOneRoad = [⟨0, 0⟩, ⟨1, 1/2⟩, ⟨2, 1⟩] ∧
    ((extentFold ⟨0, 0⟩ [⟨1, 1/2⟩, ⟨2, 1⟩]).1.lat ≤ (2 : ℚ) ∧
     (extentFold ⟨0, 0⟩ [⟨1, 1/2⟩, ⟨2, 1⟩]).1.lon ≤ (1 : ℚ) ∧
     (2 : ℚ) ≤ (extentFold ⟨0, 0⟩ [⟨1, 1/2⟩, ⟨2, 1⟩]).2.lat ∧
     (1 : ℚ) ≤ (extentFold ⟨0, 0⟩ [⟨1, 1/2⟩, ⟨2, 1⟩]).2.lon) := by
  have h1 : roadsOf osmOneRoad = [WayType.Road 0 3] := by decide
  have h2 : allCoords osmOneRoad = [⟨0, 0⟩, ⟨1, 1/2⟩, ⟨2, 1⟩] := by
    rw [allCoords, h1]
    simp [coordsOfWayType, nodesSeq, wayTypeBounds, osmOneRoad, nodesEx,
      geoCoordOfNode, List.range']
    norm_num
  refine ⟨h2, ?_⟩
  exact c10_projection_in_extent.1 osmOneRoad ⟨0, 0⟩ [⟨1, 1/2⟩, ⟨2, 1⟩] h2 ⟨2, 1⟩
    (by rw [h2]; simp)

end OsmRender
